import Mathlib

/-!
Verification of the cross-encoder reranking server
(`scripts/cross_encoder_server.py`).

The server's `/rerank` handler is a pure request-to-response function once
the two external collaborators are made explicit parameters:

* `request.get_json()` (Flask) — modelled by `GetJsonResult`: the call either
  raises an exception (caught by the handler's `except Exception` block) or
  returns a parsed value; `returned none` stands for a `None`/falsy non-dict
  result, and a parsed object is a `RerankRequest`.
* `model.predict(...).tolist()` (sentence-transformers) — modelled by a
  function `predict : List (String × String) → Except String (List Rat)`;
  `Except.error e` stands for the scorer raising an exception with message
  `e`.  Scores are modelled as rationals (the handler only compares and
  reorders them).

Python-specific semantics that the handler relies on are embedded explicitly:
dict/string/list truthiness (`if not data`, `if not query`,
`if not documents`), `dict.get` with defaults, Python's list-slice semantics
for `indexed_scores[:top_n]` (including negative stops and the `TypeError`
raised on non-integer stops), and the stability of `list.sort`
(`List.mergeSort` is a stable sort, which matches CPython's Timsort contract:
with `reverse=True` equal-key elements keep their original relative order).
-/

namespace CrossEncoderServer

open List

/-- Scalar value of the `top_n` JSON field.  The server never validates its
type, so we keep the possibilities the claims exercise: a JSON integer, a
JSON float, or a JSON string.  (A Python `bool` is an `int` subtype and
behaves like an integer slice index, so it is covered by `int`.) -/
inductive PyScalar where
  | int (n : Int)
  | float (q : Rat)
  | str (s : String)
deriving DecidableEq, Repr

/-- A parsed JSON object body for `/rerank`, as the handler reads it with
`data.get(...)`.  `query` is `none` when the key is absent or `null`
(`data.get('query')` returns `None` in both cases), likewise `documents` and
`top_n`.  `hasOtherKeys` records whether the object has any key that is not
one of the three non-null modelled fields; it only feeds dict truthiness
(`if not data`), since a Python dict is falsy exactly when it has no keys. -/
structure RerankRequest where
  query : Option String
  documents : Option (List String)
  top_n : Option PyScalar
  hasOtherKeys : Bool
deriving DecidableEq, Repr

/-- Truthiness of the parsed dict: `not data` is true exactly when the dict
has no key at all. -/
def RerankRequest.isTruthy (d : RerankRequest) : Bool :=
  d.query.isSome || d.documents.isSome || d.top_n.isSome || d.hasOtherKeys

/-- Outcome of Flask's `request.get_json()`: the call can raise (invalid
JSON with a JSON content type raises `BadRequest`, a missing JSON content
type raises `UnsupportedMediaType` in current Flask), or return a value;
`returned none` covers `None` and every other falsy non-dict result. -/
inductive GetJsonResult where
  | raised (msg : String)
  | returned (data : Option RerankRequest)
deriving Repr

/-- A `/rerank` HTTP response: either `200` with the two parallel arrays of
the JSON body `{"scores": ..., "indices": ...}`, or a status code with an
error body `{"error": message}`. -/
inductive HttpResponse where
  | ok (scores : List Rat) (indices : List Nat)
  | err (status : Nat) (message : String)
deriving DecidableEq, Repr

/-- Error body for a missing/falsy parsed body (`if not data`). -/
def noJsonDataMsg : String := "No JSON data provided"

/-- Error body for a falsy `query` (`if not query`). -/
def missingQueryMsg : String := "Missing \x27query\x27 field"

/-- Error body for a falsy `documents` (`if not documents`). -/
def missingDocsMsg : String := "Missing or empty \x27documents\x27 field"

/-- Message of the `TypeError` CPython raises when a list is sliced with a
non-integer stop, as in `indexed_scores[:top_n]` with a string `top_n`. -/
def sliceTypeError : String :=
  "slice indices must be integers or None or have an __index__ method"

/-- Message of the `ValueError` raised by `max(scores)` in the handler's
logging line when the scorer returned an empty score list. -/
def maxEmptyMsg : String := "max() arg is an empty sequence"

/-- Python truthiness of `data.get('query')`: falsy iff the key is
absent/`null` or the string is empty. -/
def pyFalsyStr : Option String → Bool
  | none => true
  | some s => decide (s = "")

/-- Embeds `documents = data.get('documents', [])`. -/
def docsOf (d : RerankRequest) : List String :=
  d.documents.getD []

/-- Embeds `top_n = data.get('top_n', len(documents))`. -/
def topNOf (d : RerankRequest) : PyScalar :=
  d.top_n.getD (.int (docsOf d).length)

/-- Embeds `pairs = [[query, doc] for doc in documents]`.  The `getD ""`
default is never reached on the path where `pairs` is used, because the
handler has already returned `400` when `query` is falsy. -/
def queryDocPairs (d : RerankRequest) : List (String × String) :=
  (docsOf d).map (fun doc => (d.query.getD "", doc))

/-- The comparison used by `indexed_scores.sort(key=lambda x: x[1],
reverse=True)`: keep `a` before `b` whenever `a`'s score is at least `b`'s.
A stable sort with this relation is exactly CPython's stable descending
sort by key. -/
def scoreDescLe (a b : Nat × Rat) : Bool :=
  decide (b.2 ≤ a.2)

/-- Embeds `indexed_scores = list(enumerate(scores))` followed by
`indexed_scores.sort(key=lambda x: x[1], reverse=True)`.  `List.mergeSort`
is a stable sort, matching CPython's `list.sort` stability guarantee. -/
def sortScored (scores : List Rat) : List (Nat × Rat) :=
  scores.enum.mergeSort scoreDescLe

/-- Stop position of the Python slice `l[:n]` for a list of length `len`:
a non-negative `n` is clamped to `len`, a negative `n` counts from the end
and is clamped to `0` (Nat subtraction). -/
def pySliceStop (n : Int) (len : Nat) : Nat :=
  if 0 ≤ n then min n.toNat len else len - (-n).toNat

/-- Embeds the slice `indexed_scores[:top_n]` for an integer `top_n`. -/
def topSlice (scores : List Rat) (n : Int) : List (Nat × Rat) :=
  (sortScored scores).take (pySliceStop n (sortScored scores).length)

/-- Body of the `rerank` handler after the `if not data` check, i.e. the
field reads, the two validation checks, the scorer call, the stable
descending sort, and the `[:top_n]` truncation producing
`{"scores": top_scores, "indices": top_indices}`.  A non-integer `top_n`
makes the slice raise `TypeError`, which the `except Exception` block turns
into a `500` with the exception message.  After the truncation the handler
logs `max(scores)`, which raises `ValueError` when the scorer returned an
empty list; that exception too becomes a `500`. -/
def handleData (d : RerankRequest)
    (predict : List (String × String) → Except String (List Rat)) :
    HttpResponse :=
  if pyFalsyStr d.query then .err 400 missingQueryMsg
  else if (docsOf d).isEmpty then .err 400 missingDocsMsg
  else
    match predict (queryDocPairs d) with
    | .error e => .err 500 e
    | .ok scores =>
      match topNOf d with
      | .int n =>
        if scores.isEmpty then .err 500 maxEmptyMsg
        else .ok ((topSlice scores n).map Prod.snd)
                 ((topSlice scores n).map Prod.fst)
      | .float _ => .err 500 sliceTypeError
      | .str _ => .err 500 sliceTypeError

/-- The full `/rerank` handler: `data = request.get_json()` (an exception
is caught by `except Exception` and becomes a `500` with the raw message),
then `if not data: return 400 "No JSON data provided"`, then the body. -/
def rerank (g : GetJsonResult)
    (predict : List (String × String) → Except String (List Rat)) :
    HttpResponse :=
  match g with
  | .raised e => .err 500 e
  | .returned none => .err 400 noJsonDataMsg
  | .returned (some d) =>
    if d.isTruthy then handleData d predict else .err 400 noJsonDataMsg

/-- A request whose `query` is not falsy has a `query` key, so the parsed
dict is truthy and passes the `if not data` check. -/
theorem isTruthy_of_query_ok {d : RerankRequest} (hq : pyFalsyStr d.query = false) :
    d.isTruthy = true := by
  cases hqv : d.query with
  | none => rw [hqv] at hq; simp [pyFalsyStr] at hq
  | some s => simp [RerankRequest.isTruthy, hqv]

/-- On the success path (truthy body, non-falsy `query`, non-empty
`documents`, scorer succeeds with a non-empty score list, integer `top_n`)
the handler answers `200` with the truncated sorted scores and their
original indices. -/
theorem rerank_success_eq {d : RerankRequest}
    {predict : List (String × String) → Except String (List Rat)}
    {scores : List Rat} {n : Int}
    (hq : pyFalsyStr d.query = false)
    (hd : (docsOf d).isEmpty = false)
    (hpred : predict (queryDocPairs d) = .ok scores)
    (hs : scores.isEmpty = false)
    (htop : topNOf d = .int n) :
    rerank (.returned (some d)) predict =
      .ok ((topSlice scores n).map Prod.snd) ((topSlice scores n).map Prod.fst) := by
  simp [rerank, isTruthy_of_query_ok hq, handleData, hq, hd, hpred, hs, htop]

/-- Any `200` response of the handler is, for some score list `scores`
returned by the scorer and some integer `n` derived from `top_n`, the pair
of projections of `topSlice scores n`. -/
theorem rerank_ok_shape {g : GetJsonResult}
    {predict : List (String × String) → Except String (List Rat)}
    {scs : List Rat} {idxs : List Nat}
    (h : rerank g predict = .ok scs idxs) :
    ∃ scores n, scs = (topSlice scores n).map Prod.snd ∧
      idxs = (topSlice scores n).map Prod.fst := by
  cases g with
  | raised e => simp [rerank] at h
  | returned data =>
    cases data with
    | none => simp [rerank] at h
    | some d =>
      simp only [rerank] at h
      split at h
      · unfold handleData at h
        split at h
        · simp at h
        · split at h
          · simp at h
          · split at h
            · simp at h
            · rename_i scores hpred
              split at h
              · rename_i n htop
                split at h
                · simp at h
                · obtain ⟨h1, h2⟩ := HttpResponse.ok.inj h
                  exact ⟨scores, n, h1.symm, h2.symm⟩
              · simp at h
              · simp at h
      · simp at h

/-- Claim C7: on `query="cat"`, the three documents, `top_n=2`, and a
scorer returning `[0.9, 0.1, 0.8]`, the handler returns scores
`[0.9, 0.8]` with indices `[0, 2]`. -/
theorem rerank_cat_scenario :
    rerank (.returned (some ⟨some "cat",
        some ["a cat sat", "a dog ran", "feline on a mat"],
        some (.int 2), false⟩))
      (fun _ => .ok [9/10, 1/10, 8/10]) =
      .ok [9/10, 8/10] [0, 2] := by
  norm_num [rerank, RerankRequest.isTruthy, handleData, pyFalsyStr, docsOf,
    topNOf, queryDocPairs, sortScored, topSlice, pySliceStop, scoreDescLe,
    List.enum, List.enumFrom, List.mergeSort, List.merge]
  rw [if_neg (by decide : ¬ ("cat" = ""))]
  rfl

/-- Claim C8: the handler is a deterministic function of the parsed body
and the scorer — identical inputs yield identical responses. -/
theorem rerank_deterministic (g g' : GetJsonResult)
    (p p' : List (String × String) → Except String (List Rat))
    (hg : g = g') (hp : p = p') : rerank g p = rerank g' p' := by
  rw [hg, hp]

/-- Witness for C8 at a concrete input. -/
theorem rerank_deterministic_witness :
    rerank (.returned (some ⟨some "q", some ["a"], none, false⟩)) (fun _ => .ok [5]) =
      rerank (.returned (some ⟨some "q", some ["a"], none, false⟩)) (fun _ => .ok [5]) :=
  rerank_deterministic _ _ _ _ rfl rfl

/-- Claim C4, amended: a `get_json` result that is `None` or a falsy dict
yields `400 "No JSON data provided"`, but a `get_json` call that raises is
caught by the generic `except Exception` block and yields `500` with the
raw exception message, not `400`. -/
theorem rerank_no_json_paths (e : String)
    (p : List (String × String) → Except String (List Rat))
    (d : RerankRequest) (hd : d.isTruthy = false) :
    rerank (.raised e) p = .err 500 e ∧
    rerank (.returned none) p = .err 400 noJsonDataMsg ∧
    rerank (.returned (some d)) p = .err 400 noJsonDataMsg := by
  refine ⟨rfl, rfl, ?_⟩
  simp [rerank, hd]

/-- Witness for the amended C4 at concrete inputs. -/
theorem rerank_no_json_paths_witness :
    rerank (.raised "Expecting value") (fun _ => .ok []) = .err 500 "Expecting value" ∧
    rerank (.returned none) (fun _ => .ok []) = .err 400 noJsonDataMsg ∧
    rerank (.returned (some ⟨none, none, none, false⟩)) (fun _ => .ok []) =
      .err 400 noJsonDataMsg :=
  rerank_no_json_paths "Expecting value" (fun _ => .ok [])
    ⟨none, none, none, false⟩ (by decide)

/-- Counterexample to claim C4 as stated: a body that is unparseable as
JSON makes `request.get_json()` raise; the handler then returns `500` with
the raw exception message, not `400 {"error": "No JSON data provided"}`. -/
theorem rerank_unparseable_counterexample :
    rerank (.raised "Expecting value: line 1 column 1 (char 0)") (fun _ => .ok []) =
      .err 500 "Expecting value: line 1 column 1 (char 0)" ∧
    HttpResponse.err 500 "Expecting value: line 1 column 1 (char 0)" ≠
      HttpResponse.err 400 noJsonDataMsg := by
  exact ⟨rfl, by decide⟩

/-- Claim C5: for a request body that passes the `if not data` check, the
handler returns the `query` error exactly when `query` is absent/empty,
returns the `documents` error exactly when `query` is fine but `documents`
is absent/empty, and in both error cases the response does not depend on
the scorer (the scorer is never invoked). -/
theorem rerank_field_validation (d : RerankRequest)
    (p : List (String × String) → Except String (List Rat))
    (htr : d.isTruthy = true) :
    (rerank (.returned (some d)) p = .err 400 missingQueryMsg ↔
      pyFalsyStr d.query = true) ∧
    (rerank (.returned (some d)) p = .err 400 missingDocsMsg ↔
      (pyFalsyStr d.query = false ∧ (docsOf d).isEmpty = true)) ∧
    ((pyFalsyStr d.query = true ∨ (docsOf d).isEmpty = true) →
      ∀ p₁ p₂, rerank (.returned (some d)) p₁ = rerank (.returned (some d)) p₂) := by
  have hmsg : missingDocsMsg ≠ missingQueryMsg := by decide
  have hmsg₂ : missingQueryMsg ≠ missingDocsMsg := hmsg.symm
  by_cases hq : pyFalsyStr d.query = true
  · refine ⟨by simp [rerank, htr, handleData, hq], ?_, ?_⟩
    · simp [rerank, htr, handleData, hq, hmsg₂]
    · intro _ p₁ p₂
      simp [rerank, htr, handleData, hq]
  · rw [Bool.not_eq_true] at hq
    by_cases hd : (docsOf d).isEmpty = true
    · refine ⟨?_, ?_, ?_⟩
      · simp [rerank, htr, handleData, hq, hd, hmsg]
      · simp [rerank, htr, handleData, hq, hd]
      · intro _ p₁ p₂
        simp [rerank, htr, handleData, hq, hd]
    · rw [Bool.not_eq_true] at hd
      refine ⟨?_, ?_, ?_⟩
      · simp only [rerank, htr, if_true, handleData, hq, hd, Bool.false_eq_true,
          if_false]
        cases hpr : p (queryDocPairs d) with
        | error e => simp
        | ok scores =>
          rcases topNOf d with n | q | s
          · cases scores <;> simp
          · simp
          · simp
      · simp only [rerank, htr, if_true, handleData, hq, hd, Bool.false_eq_true,
          if_false]
        cases hpr : p (queryDocPairs d) with
        | error e => simp [hd]
        | ok scores =>
          rcases topNOf d with n | q | s
          · cases scores <;> simp [hd]
          · simp [hd]
          · simp [hd]
      · intro hor
        rcases hor with h | h
        · rw [h] at hq; cases hq
        · rw [h] at hd; cases hd

/-- Witness for C5 at a concrete truthy body missing `documents`. -/
theorem rerank_field_validation_witness :
    (rerank (.returned (some ⟨some "q", none, none, false⟩)) (fun _ => .ok []) =
        .err 400 missingQueryMsg ↔
      pyFalsyStr (RerankRequest.mk (some "q") none none false).query = true) ∧
    (rerank (.returned (some ⟨some "q", none, none, false⟩)) (fun _ => .ok []) =
        .err 400 missingDocsMsg ↔
      (pyFalsyStr (RerankRequest.mk (some "q") none none false).query = false ∧
        (docsOf ⟨some "q", none, none, false⟩).isEmpty = true)) ∧
    ((pyFalsyStr (RerankRequest.mk (some "q") none none false).query = true ∨
        (docsOf ⟨some "q", none, none, false⟩).isEmpty = true) →
      ∀ p₁ p₂, rerank (.returned (some ⟨some "q", none, none, false⟩)) p₁ =
        rerank (.returned (some ⟨some "q", none, none, false⟩)) p₂) :=
  rerank_field_validation ⟨some "q", none, none, false⟩ (fun _ => .ok []) (by decide)

/-- Claim C6: if the external scorer raises, the handler returns `500`
whose error body is exactly the raw error message, and no `200` response
(hence no partial ranking) is produced. -/
theorem rerank_scoring_failure (d : RerankRequest)
    (p : List (String × String) → Except String (List Rat)) (e : String)
    (hq : pyFalsyStr d.query = false) (hd : (docsOf d).isEmpty = false)
    (hpred : p (queryDocPairs d) = .error e) :
    rerank (.returned (some d)) p = .err 500 e ∧
    ∀ scs idxs, rerank (.returned (some d)) p ≠ .ok scs idxs := by
  have h1 : rerank (.returned (some d)) p = .err 500 e := by
    simp [rerank, isTruthy_of_query_ok hq, handleData, hq, hd, hpred]
  exact ⟨h1, by simp [h1]⟩

/-- Witness for C6 at a concrete failing scorer. -/
theorem rerank_scoring_failure_witness :
    rerank (.returned (some ⟨some "q", some ["a"], none, false⟩))
        (fun _ => .error "boom") = .err 500 "boom" ∧
    ∀ scs idxs, rerank (.returned (some ⟨some "q", some ["a"], none, false⟩))
        (fun _ => .error "boom") ≠ .ok scs idxs :=
  rerank_scoring_failure ⟨some "q", some ["a"], none, false⟩
    (fun _ => .error "boom") "boom" (by decide) (by decide) rfl

/-- Claim C9, amended: for a truthy parsed body (at least one key) whose
`query` is absent/empty and whose `documents` is also absent/empty, the
handler returns the `query` error and never the `documents` error; the
validation order is `query` first.  (The empty JSON object is excluded: it
fails the `if not data` check instead, see the counterexample.) -/
theorem rerank_query_checked_first (d : RerankRequest)
    (p : List (String × String) → Except String (List Rat))
    (htr : d.isTruthy = true) (hq : pyFalsyStr d.query = true)
    (_hd : (docsOf d).isEmpty = true) :
    rerank (.returned (some d)) p = .err 400 missingQueryMsg ∧
    rerank (.returned (some d)) p ≠ .err 400 missingDocsMsg := by
  have h1 : rerank (.returned (some d)) p = .err 400 missingQueryMsg := by
    simp [rerank, htr, handleData, hq]
  refine ⟨h1, ?_⟩
  rw [h1]
  simp
  decide

/-- Witness for the amended C9: a body with only a `top_n` key. -/
theorem rerank_query_checked_first_witness :
    rerank (.returned (some ⟨none, none, some (.int 1), false⟩)) (fun _ => .ok []) =
      .err 400 missingQueryMsg ∧
    rerank (.returned (some ⟨none, none, some (.int 1), false⟩)) (fun _ => .ok []) ≠
      .err 400 missingDocsMsg :=
  rerank_query_checked_first ⟨none, none, some (.int 1), false⟩ (fun _ => .ok [])
    (by decide) (by decide) (by decide)

/-- Counterexample to claim C9 as stated: the empty JSON object has both
`query` and `documents` absent, yet the handler returns
`400 "No JSON data provided"` (the dict is falsy), not the `query` error. -/
theorem rerank_empty_object_counterexample :
    (RerankRequest.mk none none none false).query = none ∧
    (RerankRequest.mk none none none false).documents = none ∧
    rerank (.returned (some (RerankRequest.mk none none none false)))
        (fun _ => .ok []) = .err 400 noJsonDataMsg ∧
    HttpResponse.err 400 noJsonDataMsg ≠ HttpResponse.err 400 missingQueryMsg := by
  refine ⟨rfl, rfl, by simp [rerank, RerankRequest.isTruthy], by decide⟩

/-- Claim C10: a well-formed request whose `top_n` is present but not an
integer passes validation (no `400`), the scorer runs, and the slice
`indexed_scores[:top_n]` raises `TypeError`, which the generic handler
surfaces as `500` with the exception message. -/
theorem rerank_non_integer_top_n (d : RerankRequest)
    (p : List (String × String) → Except String (List Rat))
    (v : PyScalar) (scores : List Rat)
    (hq : pyFalsyStr d.query = false) (hd : (docsOf d).isEmpty = false)
    (htop : d.top_n = some v) (hv : ∀ n : Int, v ≠ .int n)
    (hpred : p (queryDocPairs d) = .ok scores) :
    rerank (.returned (some d)) p = .err 500 sliceTypeError ∧
    ∀ m, rerank (.returned (some d)) p ≠ .err 400 m := by
  have htn : topNOf d = v := by simp [topNOf, htop]
  have h1 : rerank (.returned (some d)) p = .err 500 sliceTypeError := by
    cases v with
    | int n => exact absurd rfl (hv n)
    | float q => simp [rerank, isTruthy_of_query_ok hq, handleData, hq, hd, hpred, htn]
    | str s => simp [rerank, isTruthy_of_query_ok hq, handleData, hq, hd, hpred, htn]
  refine ⟨h1, fun m => ?_⟩
  rw [h1]
  simp

/-- Witness for C10 with a string `top_n`. -/
theorem rerank_non_integer_top_n_witness :
    rerank (.returned (some ⟨some "q", some ["a"], some (.str "2"), false⟩))
        (fun _ => .ok [5]) = .err 500 sliceTypeError ∧
    ∀ m, rerank (.returned (some ⟨some "q", some ["a"], some (.str "2"), false⟩))
        (fun _ => .ok [5]) ≠ .err 400 m :=
  rerank_non_integer_top_n ⟨some "q", some ["a"], some (.str "2"), false⟩
    (fun _ => .ok [5]) (.str "2") [5] (by decide) (by decide) rfl
    (fun n h => by cases h) rfl

/-- In a list that is pairwise-ordered by an asymmetric relation, any two
members related by the relation occur in that order as a sublist. -/
theorem sublist_pair_of_pairwise {α : Type _} {R : α → α → Prop}
    (hasymm : ∀ x y, R x y → ¬ R y x) :
    ∀ {l : List α}, l.Pairwise R → ∀ {a b : α}, a ∈ l → b ∈ l → R a b → [a, b] <+ l
  | [], _, a, _, ha, _, _ => absurd ha (List.not_mem_nil a)
  | x :: t, hp, a, b, ha, hb, hab => by
    rcases List.mem_cons.mp ha with rfl | hat
    · rcases List.mem_cons.mp hb with rfl | hbt
      · exact absurd hab (hasymm _ _ hab)
      · exact (List.singleton_sublist.mpr hbt).cons₂ a
    · rcases List.mem_cons.mp hb with rfl | hbt
      · exact absurd hab (hasymm _ _ (List.rel_of_pairwise_cons hp hat))
      · exact (sublist_pair_of_pairwise hasymm (List.pairwise_cons.mp hp).2 hat hbt hab).cons x

/-- A duplicate-free list cannot contain the pair `[a, b]` as a sublist in
both orders. -/
theorem not_sublist_pair_swap {α : Type _} {a b : α} :
    ∀ {l : List α}, l.Nodup → [a, b] <+ l → [b, a] <+ l → False
  | [], _, h1, _ => by simp at h1
  | x :: t, hn, h1, h2 => by
    cases h1 with
    | cons _ h1' =>
      cases h2 with
      | cons _ h2' => exact not_sublist_pair_swap (List.nodup_cons.mp hn).2 h1' h2'
      | cons₂ _ h2' =>
        exact (List.nodup_cons.mp hn).1 (h1'.subset (by simp))
    | cons₂ _ h1' =>
      cases h2 with
      | cons _ h2' => exact (List.nodup_cons.mp hn).1 (h2'.subset (by simp))
      | cons₂ _ h2' => exact (List.nodup_cons.mp hn).1 (h2'.subset (by simp))

/-- The comparison `scoreDescLe` is transitive. -/
theorem scoreDescLe_trans (a b c : Nat × Rat) :
    scoreDescLe a b → scoreDescLe b c → scoreDescLe a c := by
  intro hab hbc
  simp only [scoreDescLe, decide_eq_true_eq] at *
  exact le_trans hbc hab

/-- The comparison `scoreDescLe` is total. -/
theorem scoreDescLe_total (a b : Nat × Rat) :
    scoreDescLe a b || scoreDescLe b a := by
  simp only [scoreDescLe, Bool.or_eq_true, decide_eq_true_eq]
  exact le_total b.2 a.2

/-- The first components of `scores.enum` are strictly increasing. -/
theorem enum_pairwise_fst_lt (scores : List Rat) :
    scores.enum.Pairwise (fun p q : Nat × Rat => p.1 < q.1) := by
  have h := List.pairwise_lt_range scores.length
  rw [← List.enum_map_fst scores] at h
  exact List.pairwise_map.mp h

/-- The enumerated score list has no duplicate entries. -/
theorem enum_nodup (scores : List Rat) : scores.enum.Nodup :=
  (enum_pairwise_fst_lt scores).imp
    (fun hlt heq => absurd (heq ▸ hlt) (lt_irrefl _))

/-- The stable descending sort `sortScored` orders entries by weakly
decreasing score, and entries with equal scores by strictly increasing
original index — Python's `sort(key=lambda x: x[1], reverse=True)` on
`enumerate(scores)`. -/
theorem sortScored_pairwise (scores : List Rat) :
    (sortScored scores).Pairwise
      (fun a b : Nat × Rat => b.2 ≤ a.2 ∧ (a.2 = b.2 → a.1 < b.1)) := by
  have hperm : sortScored scores ~ scores.enum :=
    List.mergeSort_perm scores.enum scoreDescLe
  have hnodup : (sortScored scores).Nodup :=
    hperm.nodup_iff.mpr (enum_nodup scores)
  have hsorted : (sortScored scores).Pairwise (fun a b => scoreDescLe a b) :=
    List.sorted_mergeSort scoreDescLe_trans scoreDescLe_total scores.enum
  rw [List.pairwise_iff_forall_sublist]
  intro a b hab
  constructor
  · have h := List.pairwise_iff_forall_sublist.mp hsorted hab
    simpa [scoreDescLe] using h
  · intro heq
    have hne : a ≠ b := by
      have h2 : ([a, b]).Nodup := List.Nodup.sublist hab hnodup
      simp only [List.nodup_cons, List.mem_singleton, List.not_mem_nil,
        not_false_eq_true, and_true, List.nodup_nil] at h2
      exact h2
    have hne1 : a.1 ≠ b.1 := fun h1 => hne (Prod.ext h1 heq)
    rcases Nat.lt_or_ge a.1 b.1 with hlt | hge
    · exact hlt
    · exfalso
      have hba : b.1 < a.1 := lt_of_le_of_ne hge hne1.symm
      have haE : a ∈ scores.enum :=
        List.mem_mergeSort.mp (hab.subset (by simp : a ∈ [a, b]))
      have hbE : b ∈ scores.enum :=
        List.mem_mergeSort.mp (hab.subset (by simp : b ∈ [a, b]))
      have hpair : [b, a] <+ scores.enum :=
        sublist_pair_of_pairwise (fun x y h h' => absurd h' (lt_asymm h))
          (enum_pairwise_fst_lt scores) hbE haE hba
      have hle : scoreDescLe b a = true := by
        simp [scoreDescLe, le_of_eq heq]
      have hswap : [b, a] <+ sortScored scores :=
        List.pair_sublist_mergeSort scoreDescLe_trans scoreDescLe_total hle hpair
      exact not_sublist_pair_swap hnodup hab hswap

/-- Claim C1: in any `200` response, the pairs `(indices[i], scores[i])`
are sorted by score in weakly descending order, and pairs with equal
scores are ordered by strictly ascending original index (the stable
tie-break of Python's `list.sort`). -/
theorem rerank_sorted_desc_stable {g : GetJsonResult}
    {predict : List (String × String) → Except String (List Rat)}
    {scs : List Rat} {idxs : List Nat}
    (h : rerank g predict = .ok scs idxs) :
    (idxs.zip scs).Pairwise
      (fun a b : Nat × Rat => b.2 ≤ a.2 ∧ (a.2 = b.2 → a.1 < b.1)) := by
  obtain ⟨scores, n, hs, hi⟩ := rerank_ok_shape h
  subst hs
  subst hi
  rw [List.zip_map']
  simp only [Prod.mk.eta, List.map_id_fun', List.map_id]
  exact List.Pairwise.sublist (List.take_sublist _ _) (sortScored_pairwise scores)

/-- Witness for C1 on a concrete successful request. -/
theorem rerank_sorted_desc_stable_witness :
    ((([0] : List Nat).zip ([5] : List Rat)).Pairwise
      (fun a b : Nat × Rat => b.2 ≤ a.2 ∧ (a.2 = b.2 → a.1 < b.1))) :=
  rerank_sorted_desc_stable
    (show rerank (.returned (some ⟨some "q", some ["a"], none, false⟩))
        (fun _ => .ok [5]) = .ok [5] [0] by
      simp [rerank, RerankRequest.isTruthy, handleData, pyFalsyStr, docsOf,
        topNOf, queryDocPairs, sortScored, topSlice, pySliceStop, scoreDescLe,
        List.enum, List.enumFrom])

/-- Length of the Python slice `indexed_scores[:n]`: the stop position of
the slice over the sorted list, which has one entry per score. -/
theorem topSlice_length (scores : List Rat) (n : Int) :
    (topSlice scores n).length = pySliceStop n scores.length := by
  have hL : (sortScored scores).length = scores.length := by
    simp [sortScored]
  rw [topSlice, List.length_take, hL]
  unfold pySliceStop
  split
  · omega
  · omega

/-- A `200` response under a known successful scorer call determines the
integer `top_n` and the two response arrays. -/
theorem rerank_ok_cases {d : RerankRequest}
    {p : List (String × String) → Except String (List Rat)}
    {scs : List Rat} {idxs : List Nat} {scores : List Rat}
    (hq : pyFalsyStr d.query = false) (hd : (docsOf d).isEmpty = false)
    (hpred : p (queryDocPairs d) = .ok scores)
    (hs : scores.isEmpty = false)
    (hresp : rerank (.returned (some d)) p = .ok scs idxs) :
    ∃ n : Int, topNOf d = .int n ∧
      scs = (topSlice scores n).map Prod.snd ∧
      idxs = (topSlice scores n).map Prod.fst := by
  cases htn : topNOf d with
  | int n =>
    have he := rerank_success_eq hq hd hpred hs htn
    rw [he] at hresp
    obtain ⟨h1, h2⟩ := HttpResponse.ok.inj hresp
    exact ⟨n, rfl, h1.symm, h2.symm⟩
  | float q =>
    have he : rerank (.returned (some d)) p = .err 500 sliceTypeError := by
      simp [rerank, isTruthy_of_query_ok hq, handleData, hq, hd, hpred, htn]
    rw [he] at hresp
    cases hresp
  | str s =>
    have he : rerank (.returned (some d)) p = .err 500 sliceTypeError := by
      simp [rerank, isTruthy_of_query_ok hq, handleData, hq, hd, hpred, htn]
    rw [he] at hresp
    cases hresp

/-- Claim C2, amended: both response arrays have the same length; when
`top_n` is omitted it defaults to `len(documents)` and the response has
`len(documents)` entries; for an integer `top_n` the length is the Python
slice stop `pySliceStop top_n len(documents)`, which for `top_n ≥ 0` is
`min(top_n, len(documents))` (so `top_n` larger than `len(documents)`
clamps to `len(documents)` and `top_n = 0` yields empty arrays), while a
negative `top_n` follows Python slice semantics — it counts from the end,
yielding `len(documents) + top_n` entries (clamped below at `0`), and is
not clamped up to `0` as the claim states. -/
theorem rerank_response_lengths (d : RerankRequest)
    (p : List (String × String) → Except String (List Rat))
    (scores scs : List Rat) (idxs : List Nat)
    (hq : pyFalsyStr d.query = false) (hd : (docsOf d).isEmpty = false)
    (hpred : p (queryDocPairs d) = .ok scores)
    (hlen : scores.length = (docsOf d).length)
    (hresp : rerank (.returned (some d)) p = .ok scs idxs) :
    idxs.length = scs.length ∧
    (d.top_n = none → scs.length = (docsOf d).length) ∧
    (∀ n : Int, d.top_n = some (.int n) →
      scs.length = pySliceStop n (docsOf d).length) ∧
    (∀ n : Int, 0 ≤ n →
      pySliceStop n (docsOf d).length = min n.toNat (docsOf d).length) ∧
    pySliceStop 0 (docsOf d).length = 0 := by
  have hfact4 : ∀ n : Int, 0 ≤ n →
      pySliceStop n (docsOf d).length = min n.toNat (docsOf d).length := by
    intro n hn
    simp [pySliceStop, hn]
  have hfact5 : pySliceStop 0 (docsOf d).length = 0 := by
    simp [pySliceStop]
  have hse : scores.isEmpty = false := by
    have h1 : (docsOf d).length ≠ 0 := by
      intro h0
      rw [List.length_eq_zero] at h0
      rw [h0] at hd
      simp at hd
    cases hsc : scores with
    | nil => rw [hsc] at hlen; simp at hlen; exact absurd hlen.symm h1
    | cons x xs => simp
  obtain ⟨n, htop, hs, hi⟩ := rerank_ok_cases hq hd hpred hse hresp
  subst hs
  subst hi
  refine ⟨by simp, ?_, ?_, hfact4, hfact5⟩
  · intro hnone
    have hd' : topNOf d = .int (docsOf d).length := by
      simp [topNOf, hnone]
    rw [hd'] at htop
    obtain rfl : ((docsOf d).length : Int) = n := PyScalar.int.inj htop
    simp [topSlice_length, hlen, pySliceStop]
  · intro n' hn'
    have hd' : topNOf d = .int n' := by
      simp [topNOf, hn']
    rw [hd'] at htop
    obtain rfl : n' = n := PyScalar.int.inj htop
    simp [topSlice_length, hlen]

/-- Witness for the amended C2: `top_n = 0` on one document yields empty
arrays. -/
theorem rerank_response_lengths_witness :
    (([] : List Nat).length = ([] : List Rat).length) ∧
    ((RerankRequest.mk (some "q") (some ["a"]) (some (.int 0)) false).top_n = none →
      ([] : List Rat).length =
        (docsOf ⟨some "q", some ["a"], some (.int 0), false⟩).length) ∧
    (∀ n : Int,
      (RerankRequest.mk (some "q") (some ["a"]) (some (.int 0)) false).top_n =
        some (.int n) →
      ([] : List Rat).length =
        pySliceStop n (docsOf ⟨some "q", some ["a"], some (.int 0), false⟩).length) ∧
    (∀ n : Int, 0 ≤ n →
      pySliceStop n (docsOf ⟨some "q", some ["a"], some (.int 0), false⟩).length =
        min n.toNat (docsOf ⟨some "q", some ["a"], some (.int 0), false⟩).length) ∧
    pySliceStop 0 (docsOf ⟨some "q", some ["a"], some (.int 0), false⟩).length = 0 :=
  rerank_response_lengths ⟨some "q", some ["a"], some (.int 0), false⟩
    (fun _ => .ok [5]) [5] [] [] (by decide) (by decide) rfl (by decide)
    (by simp [rerank, RerankRequest.isTruthy, handleData, pyFalsyStr, docsOf,
      topNOf, queryDocPairs, sortScored, topSlice, pySliceStop, scoreDescLe,
      List.enum, List.enumFrom])

/-- Counterexample to claim C2 as stated: with three documents and
`top_n = -1`, the response has `2` entries, not the
`min(top_n, len(documents))` with `top_n` clamped into `[0, 3]` (which
would be `0`) that the claim requires. -/
theorem rerank_negative_top_n_counterexample :
    rerank (.returned (some ⟨some "q", some ["a", "b", "c"],
        some (.int (-1)), false⟩)) (fun _ => .ok [1, 2, 3]) =
      .ok [3, 2] [2, 1] ∧
    (([3, 2] : List Rat).length = 2 ∧
      ¬ ((2 : Nat) = Int.toNat (min (max (-1) 0) 3))) := by
  constructor
  · norm_num [rerank, RerankRequest.isTruthy, handleData, pyFalsyStr, docsOf,
      topNOf, queryDocPairs, sortScored, topSlice, pySliceStop, scoreDescLe,
      List.enum, List.enumFrom, List.mergeSort, List.merge]
    exact fun h => absurd h (by decide)
  · exact ⟨rfl, by decide⟩

/-- Claim C3: in any `200` response, every index is an original position
within the input `documents`, no index repeats, and `indices[i]` is the
position whose score is `scores[i]` in the scorer's output (itself
parallel to `documents`). -/
theorem rerank_indices_orig_positions (d : RerankRequest)
    (p : List (String × String) → Except String (List Rat))
    (scores scs : List Rat) (idxs : List Nat)
    (hq : pyFalsyStr d.query = false) (hd : (docsOf d).isEmpty = false)
    (hpred : p (queryDocPairs d) = .ok scores)
    (hlen : scores.length = (docsOf d).length)
    (hresp : rerank (.returned (some d)) p = .ok scs idxs) :
    idxs.Nodup ∧
    (∀ i ∈ idxs, i < (docsOf d).length) ∧
    ∀ k (hk : k < idxs.length) (hk' : k < scs.length),
      scores[idxs[k]]? = some scs[k] := by
  have hse : scores.isEmpty = false := by
    have h1 : (docsOf d).length ≠ 0 := by
      intro h0
      rw [List.length_eq_zero] at h0
      rw [h0] at hd
      simp at hd
    cases hsc : scores with
    | nil => rw [hsc] at hlen; simp at hlen; exact absurd hlen.symm h1
    | cons x xs => simp
  obtain ⟨n, htop, hs, hi⟩ := rerank_ok_cases hq hd hpred hse hresp
  subst hs
  subst hi
  have hsubT : topSlice scores n <+ sortScored scores := List.take_sublist _ _
  have hpermS : List.Perm (sortScored scores) scores.enum :=
    List.mergeSort_perm scores.enum scoreDescLe
  have hmapPerm : List.Perm ((sortScored scores).map Prod.fst) (range scores.length) := by
    have h := hpermS.map Prod.fst
    rwa [List.enum_map_fst] at h
  refine ⟨?_, ?_, ?_⟩
  · have hnodupS : ((sortScored scores).map Prod.fst).Nodup :=
      hmapPerm.nodup_iff.mpr (List.nodup_range _)
    exact List.Nodup.sublist (hsubT.map Prod.fst) hnodupS
  · intro i hi
    have hiS : i ∈ (sortScored scores).map Prod.fst :=
      (hsubT.map Prod.fst).subset hi
    have : i ∈ range scores.length := hmapPerm.mem_iff.mp hiS
    rw [← hlen]
    exact List.mem_range.mp this
  · intro k hk hk'
    have hkT : k < (topSlice scores n).length := by
      simpa using hk
    have hmem : (topSlice scores n)[k] ∈ topSlice scores n :=
      List.getElem_mem hkT
    have hmemE : (topSlice scores n)[k] ∈ scores.enum := by
      have h1 : (topSlice scores n)[k] ∈ sortScored scores := hsubT.subset hmem
      exact List.mem_mergeSort.mp h1
    have hcore := List.mem_enum_iff_getElem?.mp hmemE
    simpa using hcore

/-- Witness for C3 on a concrete successful request. -/
theorem rerank_indices_orig_positions_witness :
    ([0] : List Nat).Nodup ∧
    (∀ i ∈ ([0] : List Nat),
      i < (docsOf ⟨some "q", some ["a"], none, false⟩).length) ∧
    ∀ k (hk : k < ([0] : List Nat).length) (hk' : k < ([5] : List Rat).length),
      ([5] : List Rat)[(([0] : List Nat)[k])]? = some (([5] : List Rat)[k]) :=
  rerank_indices_orig_positions ⟨some "q", some ["a"], none, false⟩
    (fun _ => .ok [5]) [5] [5] [0] (by decide) (by decide) rfl rfl
    (by simp [rerank, RerankRequest.isTruthy, handleData, pyFalsyStr, docsOf,
      topNOf, queryDocPairs, sortScored, topSlice, pySliceStop, scoreDescLe,
      List.enum, List.enumFrom])

end CrossEncoderServer
